import Mathlib

/-!
Verification development for the game-counters repository.

The embedding has two layers, both translated from `src/src/App.tsx` and
the Counter component source:

* a raw JSON layer (`Json`, `tryLoad`, `loadState`) modelling the
  startup load / schema-migration effect, which works on untyped
  parsed data exactly as the JavaScript does (property access on
  `null`/`undefined` throws, `typeof` checks, truthiness, `||`
  defaulting, strict equality between values of independent parses);
* a typed layer (`CounterData`, `Collection`, `AppState` and the store
  operations) modelling the in-memory state and the mutation functions
  of the App component, with the wall clock (`Date.now()`) and the
  per-counter fresh-id source injected as parameters.

JSON numeric literals relevant to the claims are integers, so numbers
are modelled as `Int`; JavaScript `parseInt` is modelled exactly,
including its `NaN` result (`JsNumber.nan`).
-/

namespace GameCounters

/-- JavaScript `String.prototype.trim`: strip leading and trailing
whitespace.  Defined by structural list recursion so that terms
involving it evaluate inside proofs. -/
def trimJS (s : String) : String :=
  ⟨((s.toList.dropWhile Char.isWhitespace).reverse.dropWhile
      Char.isWhitespace).reverse⟩

/-- Parsed JSON values, plus `undef` for JavaScript `undefined` (the
result of a missing-property access; `JSON.parse` itself never produces
it). -/
inductive Json where
  | null
  | bool (b : Bool)
  | num (n : Int)
  | str (s : String)
  | arr (elems : List Json)
  | obj (fields : List (String × Json))
  | undefined

/-- JavaScript truthiness of a value. Non-empty strings, nonzero
numbers, and all objects and arrays are truthy. -/
def truthy : Json → Bool
  | .null => false
  | .undefined => false
  | .bool b => b
  | .num n => n != 0
  | .str s => s != ""
  | .arr _ => true
  | .obj _ => true

/-- Property read that cannot throw: the property value of an object,
`undefined` for a missing property or for any non-object base value.
Only used where the base is known not to be `null`/`undefined`
(JavaScript would throw there; see `getField`).  Integer-indexed
properties of arrays and strings are not modelled: no property name
used by the program is an index. -/
def propOf : Json → String → Json
  | .obj fields, key => ((fields.lookup key).getD .undefined)
  | _, _ => .undefined

/-- JavaScript property access `base.key`: throws a TypeError when the
base is `null` or `undefined`, otherwise reads the property. -/
def getField (base : Json) (key : String) : Except Unit Json :=
  match base with
  | .null => .error ()
  | .undefined => .error ()
  | b => .ok (propOf b key)

/-- JavaScript `a || b`. -/
def jsOr (a b : Json) : Json := if truthy a then a else b

/-- JavaScript strict equality `===` between a value of one
`JSON.parse` result and a value of an independent parse: primitives
compare by value, objects and arrays by reference, and references never
coincide across independent parses. -/
def strictEq : Json → Json → Bool
  | .null, .null => true
  | .undefined, .undefined => true
  | .bool a, .bool b => a == b
  | .num a, .num b => a == b
  | .str a, .str b => a == b
  | _, _ => false

/-- Replace the value of `key` in a field list, keeping its position,
or append it; the semantics of `{ ...obj, key: v }` on the fields of
`obj`. -/
def setField : List (String × Json) → String → Json → List (String × Json)
  | [], key, v => [(key, v)]
  | (k, w) :: rest, key, v =>
      if k = key then (key, v) :: rest else (k, w) :: setField rest key v

/-- The object literal `{ ...base, key: v }`.  Spreading a non-object
keeps none of the property names the program ever reads, so it is
modelled as producing only the explicit field. -/
def spreadWith (base : Json) (key : String) (v : Json) : Json :=
  match base with
  | .obj fields => .obj (setField fields key v)
  | _ => .obj [(key, v)]

/-- `typeof x === "string"`. -/
def isStr : Json → Bool
  | .str _ => true
  | _ => false

/-- `typeof x === "number"`. -/
def isNum : Json → Bool
  | .num _ => true
  | _ => false

/-- `x === undefined`. -/
def isUndefined : Json → Bool
  | .undefined => true
  | _ => false

/-- `isValidCounterData` from App.tsx: the minimal valid-counter
predicate applied to raw data. -/
def isValidCounterData (data : Json) : Bool :=
  truthy data &&
  isStr (propOf data "id") &&
  isStr (propOf data "label") &&
  isNum (propOf data "value") &&
  isNum (propOf data "initialValue") &&
  (isUndefined (propOf data "maxValue") || isNum (propOf data "maxValue")) &&
  isNum (propOf data "rotation")

/-- One step of the legacy-migration map:
`{ ...counter, rotation: counter.rotation || 0 }` for a base that does
not throw on property access. -/
def migrateCounter (c : Json) : Json :=
  spreadWith c "rotation" (jsOr (propOf c "rotation") (Json.num 0))

/-- `createCollection` from App.tsx, at the raw JSON level: the object
literal it returns, with `Date.now()` injected as `now`. -/
def createCollectionJson (name : String) (initialCounters : List Json)
    (now : Nat) : Json :=
  .obj [("id", .str (toString now)),
        ("name", .str (trimJS name)),
        ("createdAt", .num (Int.ofNat now)),
        ("lastModified", .num (Int.ofNat now)),
        ("counters", .arr initialCounters)]

/-- `Array.prototype.map` with a callback that may throw. -/
def mapExcept (f : Json → Except Unit Json) : List Json → Except Unit (List Json)
  | [] => .ok []
  | c :: rest =>
      match f c with
      | .error e => .error e
      | .ok r =>
          match mapExcept f rest with
          | .error e => .error e
          | .ok rs => .ok (r :: rs)

/-- `Array.prototype.find` with a predicate that may throw; returns the
found element, or `undefined` when no element matches. -/
def findJS (p : Json → Except Unit Bool) : List Json → Except Unit Json
  | [] => .ok .undefined
  | c :: rest =>
      match p c with
      | .error e => .error e
      | .ok true => .ok c
      | .ok false => findJS p rest

/-- The outcome of the load/migration effect: the collection list and
the active-collection id the two `setState` calls received, plus
whether the legacy `game-counters` storage key is still present
afterwards. -/
structure LoadOutcome where
  collections : List Json
  activeId : Json
  legacyKeyPresent : Bool

/-- The `c => c.id === settings.lastActiveCollectionId` callback of the
`find` on line 114 of App.tsx, evaluated left to right. -/
def activeIdMatch (settings : Json) (c : Json) : Except Unit Bool :=
  match getField c "id" with
  | .error e => .error e
  | .ok cid =>
      match getField settings "lastActiveCollectionId" with
      | .error e => .error e
      | .ok lid => .ok (strictEq cid lid)

/-- The `counter => ({ ...counter, rotation: counter.rotation || 0 })`
callback of the legacy-migration map on lines 140-143 of App.tsx. -/
def migrateStep (c : Json) : Except Unit Json :=
  match getField c "rotation" with
  | .error e => .error e
  | .ok r => .ok (spreadWith c "rotation" (jsOr r (Json.num 0)))

/-- The `try` block of the load/migration effect (App.tsx lines
98-161).  Each storage entry is `none` when the key is absent (or holds
a falsy string), `some none` when it holds a string `JSON.parse`
rejects (a thrown exception), and `some (some v)` when it parses to
`v`.  An `error` result is a thrown exception reaching the `catch`. -/
def tryLoad (collectionsData gameCounters appSettings : Option (Option Json))
    (now : Nat) : Except Unit LoadOutcome :=
  match collectionsData with
  | some parseRes =>
      match parseRes with
      | none => .error ()
      | some parsed =>
          match parsed with
          | .arr items =>
              match appSettings with
              | some settingsRes =>
                  match settingsRes with
                  | none => .error ()
                  | some settings =>
                      match findJS (activeIdMatch settings) items with
                      | .error e => .error e
                      | .ok lastActiveExists =>
                          if truthy lastActiveExists then
                            match getField settings "lastActiveCollectionId" with
                            | .error e => .error e
                            | .ok lid =>
                                .ok ⟨items, lid, gameCounters.isSome⟩
                          else if 0 < items.length then
                            match getField (items.headD .undefined) "id" with
                            | .error e => .error e
                            | .ok fid => .ok ⟨items, fid, gameCounters.isSome⟩
                          else
                            .ok ⟨items, .null, gameCounters.isSome⟩
              | none =>
                  if 0 < items.length then
                    match getField (items.headD .undefined) "id" with
                    | .error e => .error e
                    | .ok fid => .ok ⟨items, fid, gameCounters.isSome⟩
                  else
                    .ok ⟨items, .null, gameCounters.isSome⟩
          | _ => .ok ⟨[], .null, gameCounters.isSome⟩
  | none =>
      match gameCounters with
      | some oldRes =>
          match oldRes with
          | none => .error ()
          | some oldParsed =>
              match oldParsed with
              | .arr items =>
                  match mapExcept migrateStep items with
                  | .error e => .error e
                  | .ok migrated =>
                      let valid := migrated.filter isValidCounterData
                      let coll := createCollectionJson "My Counters" valid now
                      .ok ⟨[coll], .str (toString now), false⟩
              | _ => .ok ⟨[], .null, true⟩
      | none =>
          let coll := createCollectionJson "My Counters" [] now
          .ok ⟨[coll], .str (toString now), false⟩

/-- The whole load/migration effect including the `catch` fallback
(App.tsx lines 162-167): any exception yields a single fresh empty
default-named collection, made active.  No throw can occur after the
legacy key is removed, so on the fallback path the legacy key is
present exactly when it was present before. -/
def loadState (collectionsData gameCounters appSettings : Option (Option Json))
    (now : Nat) : LoadOutcome :=
  match tryLoad collectionsData gameCounters appSettings now with
  | .ok o => o
  | .error _ =>
      ⟨[createCollectionJson "My Counters" [] now],
       .str (toString now), gameCounters.isSome⟩

/-! ## Typed layer: the in-memory state and the store operations -/

/-- A JavaScript number as produced by `parseInt`: an integer or `NaN`. -/
inductive JsNumber where
  | nan
  | int (n : Int)
deriving Repr, DecidableEq

/-- The numeric value of a character as a digit in the given radix, or
`none` when the character is not a digit of that radix. -/
def digitVal (radix : Nat) (c : Char) : Option Nat :=
  let v : Option Nat :=
    if c.isDigit then some (c.toNat - 48)
    else if 'a' ≤ c && c ≤ 'z' then some (c.toNat - 87)
    else if 'A' ≤ c && c ≤ 'Z' then some (c.toNat - 55)
    else none
  match v with
  | some n => if n < radix then some n else none
  | none => none

/-- Accumulate the longest prefix of digits of the given radix;
`none` when no digit has been consumed yet. -/
def parseIntCore (radix : Nat) : List Char → Option Nat → Option Nat
  | [], acc => acc
  | c :: rest, acc =>
      match digitVal radix c with
      | some d => parseIntCore radix rest (some ((acc.getD 0) * radix + d))
      | none => acc

/-- JavaScript `parseInt(s)` (radix argument omitted): skip leading
whitespace, read an optional sign, detect a `0x`/`0X` hexadecimal
prefix, then the longest digit prefix; `NaN` when no digit is found. -/
def parseIntJS (s : String) : JsNumber :=
  let cs := s.toList.dropWhile Char.isWhitespace
  let signAndRest : Int × List Char :=
    match cs with
    | '-' :: rest => (-1, rest)
    | '+' :: rest => (1, rest)
    | _ => (1, cs)
  let radixAndRest : Nat × List Char :=
    match signAndRest.2 with
    | '0' :: 'x' :: rest => (16, rest)
    | '0' :: 'X' :: rest => (16, rest)
    | _ => (10, signAndRest.2)
  match parseIntCore radixAndRest.1 radixAndRest.2 none with
  | some n => .int (signAndRest.1 * Int.ofNat n)
  | none => .nan

/-- JavaScript `x || 0` on a `parseInt` result (`NaN` and `0` are
falsy). -/
def numOrZero : JsNumber → Int
  | .nan => 0
  | .int n => n

/-- The `CounterData` interface of App.tsx.  `maxValue` is optional and,
when present, may be the `NaN` a failed `parseInt` produces. -/
structure CounterData where
  id : String
  label : String
  value : Int
  initialValue : Int
  maxValue : Option JsNumber
  rotation : Int
deriving Repr, DecidableEq

/-- The `Collection` interface of App.tsx. -/
structure Collection where
  id : String
  name : String
  createdAt : Int
  lastModified : Int
  counters : List CounterData
deriving Repr, DecidableEq

/-- The store-owned component state: the collection list and the
active-collection id (`null` or a string). -/
structure AppState where
  collections : List Collection
  activeCollectionId : Option String
deriving Repr, DecidableEq

/-- `value < maxValue` in the increment guard of the Counter component:
false when `maxValue` is `NaN`, so the guard `maxValue === undefined ||
value < maxValue` passes exactly when `ltMax` holds. -/
def ltMax (value : Int) : Option JsNumber → Bool
  | none => true
  | some .nan => false
  | some (.int m) => value < m

/-- `increment` of the Counter component: adds 1 unless the bound check
fails. -/
def increment (value : Int) (maxValue : Option JsNumber) : Int :=
  if ltMax value maxValue then value + 1 else value

/-- `decrement` of the Counter component: subtracts 1 unless the value
is not positive. -/
def decrement (value : Int) : Int :=
  if value > 0 then value - 1 else value

/-- `createCollection` of App.tsx at the typed level, with `Date.now()`
injected as `now`. -/
def createCollection (name : String) (initialCounters : List CounterData)
    (now : Int) : Collection :=
  { id := toString now
    name := trimJS name
    createdAt := now
    lastModified := now
    counters := initialCounters }

/-- Truthiness of the `activeCollectionId` state (`null` and the empty
string are falsy). -/
def activeTruthy (s : AppState) : Bool :=
  match s.activeCollectionId with
  | none => false
  | some aid => aid != ""

/-- `updateActiveCollection` of App.tsx: replace the counters of the
collection whose id equals the active id and bump its `lastModified`;
a no-op when the active id is falsy. -/
def updateActiveCollection (s : AppState) (updatedCounters : List CounterData)
    (now : Int) : AppState :=
  match s.activeCollectionId with
  | none => s
  | some aid =>
      if aid = "" then s
      else
        { s with collections := s.collections.map (fun c =>
            if c.id == aid then
              { c with counters := updatedCounters, lastModified := now }
            else c) }

/-- The derived `counters` value of App.tsx:
`collections.find(c => c.id === activeCollectionId)?.counters || []`. -/
def activeCounters (s : AppState) : List CounterData :=
  match s.activeCollectionId with
  | none => []
  | some aid =>
      match s.collections.find? (fun c => c.id == aid) with
      | some c => c.counters
      | none => []

/-- `addCounter` of App.tsx: rejected when the trimmed label is empty or
no collection is active; otherwise parse the optional max value and the
default value and append the new counter to the active collection. -/
def addCounter (s : AppState) (newLabel newMaxValue newDefaultValue : String)
    (now : Int) : AppState :=
  if trimJS newLabel ≠ "" ∧ activeTruthy s then
    let maxVal : Option JsNumber :=
      if newMaxValue ≠ "" then some (parseIntJS newMaxValue) else none
    let defaultVal : Int := numOrZero (parseIntJS newDefaultValue)
    let newCounter : CounterData :=
      { id := toString now
        label := trimJS newLabel
        value := defaultVal
        initialValue := defaultVal
        maxValue := maxVal
        rotation := 0 }
    updateActiveCollection s (activeCounters s ++ [newCounter]) now
  else s

/-- `removeCounter` of App.tsx. -/
def removeCounter (s : AppState) (cid : String) (now : Int) : AppState :=
  updateActiveCollection s
    ((activeCounters s).filter (fun c => !(c.id == cid))) now

/-- `updateCounter` of App.tsx: set the value of every counter of the
active collection whose id matches. -/
def updateCounter (s : AppState) (cid : String) (v : Int) (now : Int) : AppState :=
  updateActiveCollection s
    ((activeCounters s).map (fun c =>
      if c.id == cid then { c with value := v } else c)) now

/-- `rotateCounter` of App.tsx. -/
def rotateCounter (s : AppState) (cid : String) (r : Int) (now : Int) : AppState :=
  updateActiveCollection s
    ((activeCounters s).map (fun c =>
      if c.id == cid then { c with rotation := r } else c)) now

/-- `resetAllCounters` of App.tsx: set every counter of the active
collection back to its initial value. -/
def resetAllCounters (s : AppState) (now : Int) : AppState :=
  updateActiveCollection s
    ((activeCounters s).map (fun c => { c with value := c.initialValue })) now

/-- `counter.rotation || 0` on an already-numeric rotation. -/
def orZero (n : Int) : Int := if n == 0 then 0 else n

/-- The counters of a duplicated collection: each source counter copied
with a new id drawn from the injected fresh-id source (modelling
`Date.now() + Math.random().toString()`, one draw per counter in list
order) and `rotation: counter.rotation || 0`. -/
def dupCounters (fresh : Nat → String) : Nat → List CounterData → List CounterData
  | _, [] => []
  | i, c :: rest =>
      { c with id := fresh i, rotation := orZero c.rotation }
        :: dupCounters fresh (i + 1) rest

/-- `duplicateCollection` of App.tsx. -/
def duplicateCollection (source : Collection) (newName : String) (now : Int)
    (fresh : Nat → String) : Collection :=
  createCollection newName (dupCounters fresh 0 source.counters) now

/-- `handleCreateCollection` of App.tsx: duplicate the source collection
when a truthy `duplicateFromId` names an existing collection, otherwise
create an empty one; append it and switch to it. -/
def handleCreateCollection (s : AppState) (name : String)
    (duplicateFromId : Option String) (now : Int) (fresh : Nat → String) :
    AppState :=
  let newCollection : Collection :=
    match duplicateFromId with
    | some dupId =>
        if dupId = "" then createCollection name [] now
        else
          match s.collections.find? (fun c => c.id == dupId) with
          | some src => duplicateCollection src name now fresh
          | none => createCollection name [] now
    | none => createCollection name [] now
  { collections := s.collections ++ [newCollection]
    activeCollectionId := some newCollection.id }

/-- `handleDeleteCollection` of App.tsx: rejected when at most one
collection exists; otherwise remove every collection with the given id,
and when the active collection was deleted, make the first remaining
collection active (leaving the active id alone when none remains). -/
def handleDeleteCollection (s : AppState) (collectionId : String) : AppState :=
  if s.collections.length ≤ 1 then s
  else
    let updatedCollections :=
      s.collections.filter (fun c => !(c.id == collectionId))
    let newActive : Option String :=
      if s.activeCollectionId = some collectionId then
        match updatedCollections with
        | [] => s.activeCollectionId
        | firstCollection :: _ => some firstCollection.id
      else s.activeCollectionId
    { collections := updatedCollections, activeCollectionId := newActive }

/-- `handleRenameCollection` of App.tsx. -/
def handleRenameCollection (s : AppState) (collectionId newName : String)
    (now : Int) : AppState :=
  { s with collections := s.collections.map (fun c =>
      if c.id == collectionId then
        { c with name := newName, lastModified := now }
      else c) }

/-- `switchToCollection` of App.tsx (the form-visibility flags it also
clears are presentation state outside the store). -/
def switchToCollection (s : AppState) (collectionId : String) : AppState :=
  { s with activeCollectionId := some collectionId }

/-! ## Concrete fixtures used by witnesses and counterexamples -/

/-- A single empty collection. -/
def exCollection : Collection :=
  { id := "c1", name := "My Counters", createdAt := 0, lastModified := 0,
    counters := [] }

/-- A state with one empty active collection. -/
def exState : AppState := { collections := [exCollection], activeCollectionId := some "c1" }

/-- A state with two collections, the first one active. -/
def exTwoState : AppState :=
  { collections :=
      [{ id := "c1", name := "A", createdAt := 0, lastModified := 0, counters := [] },
       { id := "c2", name := "B", createdAt := 0, lastModified := 0, counters := [] }]
    activeCollectionId := some "c1" }

/-- A counter whose initial value is at its maximum, for the reset
claim. -/
def exCounterAtMax : CounterData :=
  { id := "k1", label := "HP", value := 3, initialValue := 10,
    maxValue := some (JsNumber.int 10), rotation := 0 }

/-- A state whose active collection holds `exCounterAtMax`. -/
def exStateAtMax : AppState :=
  { collections :=
      [{ id := "c1", name := "My Counters", createdAt := 0, lastModified := 0,
         counters := [exCounterAtMax] }]
    activeCollectionId := some "c1" }

/-- The valid legacy entry of the spec's migration test. -/
def legacyValidEntry : Json :=
  Json.obj [("id", Json.str "1"), ("label", Json.str "HP"),
            ("value", Json.num 5), ("initialValue", Json.num 10),
            ("maxValue", Json.num 10)]

/-- The invalid legacy entry of the spec's migration test (missing
`id`, `value`, ...). -/
def legacyInvalidEntry : Json := Json.obj [("label", Json.str "X")]

/-! ## Helper lemmas -/

/-- Finding by id after the active-collection map update finds the
updated image of the original find. -/
theorem find?_map_update (l : List Collection) (aid : String)
    (cs : List CounterData) (now : Int) :
    (l.map (fun c =>
        if c.id == aid then { c with counters := cs, lastModified := now }
        else c)).find? (fun c => c.id == aid)
      = (l.find? (fun c => c.id == aid)).map
          (fun c => { c with counters := cs, lastModified := now }) := by
  induction l with
  | nil => simp
  | cons c t ih =>
      cases hb : c.id == aid with
      | true =>
          simp only [List.map_cons, if_pos hb, List.find?_cons]
          simp only [hb, Option.map_some']
      | false =>
          have hcon : ¬((c.id == aid) = true) := by
            rw [hb]; exact Bool.false_ne_true
          simp only [List.map_cons, if_neg hcon, List.find?_cons]
          simp only [hb]
          exact ih

/-- With a truthy active id, `updateActiveCollection` maps the
collection list, updating exactly the collections whose id is the
active one. -/
theorem updateActiveCollection_collections (s : AppState)
    (cs : List CounterData) (now : Int) (aid : String)
    (hact : s.activeCollectionId = some aid) (hne : aid ≠ "") :
    (updateActiveCollection s cs now).collections
      = s.collections.map (fun c =>
          if c.id == aid then { c with counters := cs, lastModified := now }
          else c) := by
  simp only [updateActiveCollection, hact]
  rw [if_neg hne]

/-- `updateActiveCollection` never changes the active id. -/
theorem updateActiveCollection_activeId (s : AppState)
    (cs : List CounterData) (now : Int) :
    (updateActiveCollection s cs now).activeCollectionId
      = s.activeCollectionId := by
  unfold updateActiveCollection
  split
  · rfl
  · split
    · rfl
    · rfl

/-- Under a valid active collection, `activeCounters` after
`updateActiveCollection` is exactly the counter list that was passed
in. -/
theorem activeCounters_update (s : AppState) (cs : List CounterData)
    (now : Int) (aid : String)
    (hact : s.activeCollectionId = some aid) (hne : aid ≠ "")
    (hfind : (s.collections.find? (fun c => c.id == aid)).isSome) :
    activeCounters (updateActiveCollection s cs now) = cs := by
  obtain ⟨c0, hc0⟩ := Option.isSome_iff_exists.mp hfind
  have hcoll := updateActiveCollection_collections s cs now aid hact hne
  have hid : (updateActiveCollection s cs now).activeCollectionId = some aid :=
    (updateActiveCollection_activeId s cs now).trans hact
  simp only [activeCounters, hid, hcoll, find?_map_update, hc0, Option.map_some']

/-! ## Claim C2 -/

/-- C2 counterexample: counter construction does not preserve the
bounds invariant.  Adding a counter with default-value input `"-5"` to
a valid state creates a counter whose value is `-5 < 0` at the mutation
boundary. -/
theorem addCounter_accepts_negative_value :
    (activeCounters (addCounter exState "A" "" "-5" 1)).map (fun c => c.value)
        = [-5] ∧ ((-5 : Int) < 0) := by
  constructor
  · rfl
  · decide

/-- C2 (amended): the guarded counter mutations preserve the bounds at
the mutation boundary.  If `0 ≤ value`, then after `increment` and
after `decrement` the value is still nonnegative — in particular, after
`decrement`, `value' ≥ 0` — and `increment` never takes a value above a
defined numeric `maxValue` it does not already exceed.  (Counter
construction does not enforce the bounds: an out-of-range default value
is accepted as-is.) -/
theorem increment_decrement_preserve_bounds (v : Int) (m : Option JsNumber)
    (h0 : 0 ≤ v) :
    0 ≤ increment v m ∧ 0 ≤ decrement v ∧
      ∀ mv : Int, m = some (JsNumber.int mv) → v ≤ mv → increment v m ≤ mv := by
  refine ⟨?_, ?_, ?_⟩
  · unfold increment; split <;> omega
  · unfold decrement; split <;> omega
  · intro mv hm hle
    subst hm
    by_cases h : v < mv <;> simp [increment, ltMax, h] <;> omega

/-- Witness for the amended C2 theorem at `value = 0`, no bound. -/
theorem increment_decrement_preserve_bounds_witness :
    0 ≤ increment 0 none ∧ 0 ≤ decrement 0 :=
  ⟨(increment_decrement_preserve_bounds 0 none (by decide)).1,
   (increment_decrement_preserve_bounds 0 none (by decide)).2.1⟩

/-! ## Claim C7 -/

/-- C7 counterexample: a maxValue input that fails to parse is not
treated as absent — `parseInt("abc")` is `NaN` and the created counter
stores it as its `maxValue`, under which `increment` never fires (an
effective bound of never-incrementable, not "no upper bound"); and a
negative maxValue input `"-5"` is accepted, so positivity is not
enforced. -/
theorem addCounter_nan_maxValue_counterexample :
    (activeCounters (addCounter exState "A" "abc" "0" 1)).map (fun c => c.maxValue)
        = [some JsNumber.nan] ∧
    increment 0 (some JsNumber.nan) = 0 ∧
    (activeCounters (addCounter exState "A" "-5" "0" 1)).map (fun c => c.maxValue)
        = [some (JsNumber.int (-5))] := by
  refine ⟨rfl, rfl, rfl⟩

/-- C7 (amended): at counter construction, a non-empty maxValue input
is parsed with `parseInt` and stored without positivity validation (a
parse failure yields a stored `NaN` bound rather than an absent one);
an empty maxValue input is treated as absent; the defaultValue input is
a parsed integer defaulting to 0 on parse failure, and it becomes both
`value` and `initialValue`. -/
theorem addCounter_maxValue_parsing (s : AppState) (label mv dv : String)
    (now : Int) (aid : String)
    (hlabel : trimJS label ≠ "") (hact : s.activeCollectionId = some aid)
    (hne : aid ≠ "")
    (hfind : (s.collections.find? (fun c => c.id == aid)).isSome) :
    ∃ c : CounterData,
      activeCounters (addCounter s label mv dv now) = activeCounters s ++ [c] ∧
      c.maxValue = (if mv ≠ "" then some (parseIntJS mv) else none) ∧
      c.value = numOrZero (parseIntJS dv) ∧
      c.initialValue = numOrZero (parseIntJS dv) ∧
      c.label = trimJS label ∧ c.rotation = 0 ∧ c.id = toString now := by
  have hT : activeTruthy s = true := by simp [activeTruthy, hact, hne]
  refine ⟨{ id := toString now, label := trimJS label,
            value := numOrZero (parseIntJS dv),
            initialValue := numOrZero (parseIntJS dv),
            maxValue := if mv ≠ "" then some (parseIntJS mv) else none,
            rotation := 0 }, ?_, rfl, rfl, rfl, rfl, rfl, rfl⟩
  unfold addCounter
  rw [if_pos ⟨hlabel, hT⟩]
  exact activeCounters_update s _ now aid hact hne hfind

/-- Witness for the amended C7 theorem on a concrete state. -/
theorem addCounter_maxValue_parsing_witness :
    ∃ c : CounterData,
      activeCounters (addCounter exState "A" "7" "2" 1) = activeCounters exState ++ [c] ∧
      c.maxValue = (if "7" ≠ "" then some (parseIntJS "7") else none) ∧
      c.value = numOrZero (parseIntJS "2") ∧
      c.initialValue = numOrZero (parseIntJS "2") ∧
      c.label = trimJS "A" ∧ c.rotation = 0 ∧ c.id = toString (1 : Int) :=
  addCounter_maxValue_parsing exState "A" "7" "2" 1 "c1" (by decide) rfl
    (by decide) (by decide)

/-! ## Claim C8 -/

/-- C8: reset always yields `value = initialValue`, regardless of the
prior value and of `maxValue` (in particular when `initialValue` is at
or above `maxValue`): every counter of the active collection after
`resetAllCounters` has `value = initialValue`, and the per-counter
reset (`onUpdate(id, initialValue)` routed through `updateCounter`)
gives every counter with the reset id the value `initialValue`. -/
theorem reset_yields_initialValue (s : AppState) (now : Int) (aid : String)
    (c0 : CounterData)
    (hact : s.activeCollectionId = some aid) (hne : aid ≠ "")
    (hfind : (s.collections.find? (fun c => c.id == aid)).isSome) :
    (∀ c' ∈ activeCounters (resetAllCounters s now), c'.value = c'.initialValue) ∧
    (∀ c' ∈ activeCounters (updateCounter s c0.id c0.initialValue now),
        c'.id = c0.id → c'.value = c0.initialValue) := by
  constructor
  · intro c' hc'
    rw [resetAllCounters, activeCounters_update s _ now aid hact hne hfind] at hc'
    obtain ⟨c, _, rfl⟩ := List.mem_map.mp hc'
    rfl
  · intro c' hc' hid
    rw [updateCounter, activeCounters_update s _ now aid hact hne hfind] at hc'
    obtain ⟨c, _, rfl⟩ := List.mem_map.mp hc'
    by_cases h : c.id == c0.id
    · simp [h]
    · rw [if_neg (by simpa using h)] at hid ⊢
      exact absurd hid (by simpa using h)

/-- Witness for C8 on a counter whose `initialValue` equals its
`maxValue`. -/
theorem reset_yields_initialValue_witness :
    (∀ c' ∈ activeCounters (resetAllCounters exStateAtMax 9),
        c'.value = c'.initialValue) ∧
    (∀ c' ∈ activeCounters (updateCounter exStateAtMax exCounterAtMax.id
        exCounterAtMax.initialValue 9),
        c'.id = exCounterAtMax.id → c'.value = exCounterAtMax.initialValue) :=
  reset_yields_initialValue exStateAtMax 9 "c1" exCounterAtMax rfl
    (by decide) (by decide)

/-! ## Claim C9 -/

/-- C9: creating a counter with a whitespace-only (trim-empty) label is
rejected as a complete no-op: the state — every collection and the
active id — is returned unchanged, and no exception path exists. -/
theorem whitespace_label_rejected (s : AppState) (label mv dv : String)
    (now : Int) (h : trimJS label = "") :
    addCounter s label mv dv now = s := by
  unfold addCounter
  rw [if_neg]
  intro hcon
  exact hcon.1 h

/-- Witness for C9 at the label `"  "`. -/
theorem whitespace_label_rejected_witness :
    addCounter exState "  " "" "0" 1 = exState :=
  whitespace_label_rejected exState "  " "" "0" 1 (by decide)

/-! ## Claim C10 -/

/-- C10: every counter-list mutation funnels through
`updateActiveCollection`, which sets the active collection's
`lastModified` to the current time while replacing its counters and
keeping its `id`, `name`, `createdAt` and every other collection
unchanged; and `removeCounter` with an id absent from the active
collection still goes through `updateActiveCollection` with an
element-wise identical counter list, so the timestamp is bumped even
then. -/
theorem mutation_updates_lastModified_frame (s : AppState)
    (cs : List CounterData) (now : Int) (aid : String)
    (hact : s.activeCollectionId = some aid) (hne : aid ≠ "")
    (hex : ∃ c ∈ s.collections, c.id = aid) :
    (updateActiveCollection s cs now).collections.length = s.collections.length ∧
    (∀ c ∈ s.collections, c.id ≠ aid →
        c ∈ (updateActiveCollection s cs now).collections) ∧
    (∃ c ∈ s.collections, c.id = aid ∧
        { c with counters := cs, lastModified := now }
          ∈ (updateActiveCollection s cs now).collections) ∧
    (∀ cid : String, cid ∉ (activeCounters s).map (fun c => c.id) →
        removeCounter s cid now
          = updateActiveCollection s (activeCounters s) now) := by
  have hcoll := updateActiveCollection_collections s cs now aid hact hne
  refine ⟨?_, ?_, ?_, ?_⟩
  · rw [hcoll, List.length_map]
  · intro c hc hcne
    rw [hcoll]
    refine List.mem_map.mpr ⟨c, hc, ?_⟩
    rw [if_neg (by simpa using hcne)]
  · obtain ⟨c, hc, hceq⟩ := hex
    refine ⟨c, hc, hceq, ?_⟩
    rw [hcoll]
    refine List.mem_map.mpr ⟨c, hc, ?_⟩
    rw [if_pos (by simpa using hceq)]
  · intro cid hcid
    have hfilter : (activeCounters s).filter (fun c => !(c.id == cid))
        = activeCounters s := by
      apply List.filter_eq_self.mpr
      intro c hc
      have hne2 : c.id ≠ cid := fun he => hcid (List.mem_map.mpr ⟨c, hc, he⟩)
      simpa using hne2
    rw [removeCounter, hfilter]

/-- Witness for C10: the length-frame conjunct on a concrete
two-collection state. -/
theorem mutation_updates_lastModified_frame_witness :
    (updateActiveCollection exTwoState [] 9).collections.length
      = exTwoState.collections.length :=
  (mutation_updates_lastModified_frame exTwoState [] 9 "c1" rfl (by decide)
    (by decide)).1

/-! ## Claim C6 -/

/-- With at least two collections and no duplicate ids, filtering one id
out cannot empty the collection list. -/
theorem filter_ne_nil_of_nodup (l : List Collection) (cid : String)
    (hlen : 2 ≤ l.length) (hnd : (l.map (fun c => c.id)).Nodup) :
    l.filter (fun c => !(c.id == cid)) ≠ [] := by
  match l with
  | [] => simp at hlen
  | [a] => simp at hlen
  | a :: b :: t =>
      intro hnil
      rw [List.filter_eq_nil_iff] at hnil
      have ha := hnil a (by simp)
      have hb := hnil b (by simp)
      simp at ha hb
      rw [List.map_cons, List.map_cons] at hnd
      have hab : a.id ≠ b.id := by
        intro he
        exact (List.nodup_cons.mp hnd).1 (by simp [he])
      exact hab (ha.trans hb.symm)

/-- C6: deleting the active collection when at least two collections
(with distinct ids, per the data model) exist leaves the first
remaining collection in list order as the new active collection; the
new active id references an existing entry (the head of the remaining
list), and ids stay distinct. -/
theorem delete_active_fallback_first (s : AppState) (cid : String)
    (hlen : 2 ≤ s.collections.length)
    (hnd : (s.collections.map (fun c => c.id)).Nodup)
    (hact : s.activeCollectionId = some cid) :
    ∃ f rest,
      (handleDeleteCollection s cid).collections = f :: rest ∧
      f :: rest = s.collections.filter (fun c => !(c.id == cid)) ∧
      (handleDeleteCollection s cid).activeCollectionId = some f.id ∧
      ((f :: rest).map (fun c => c.id)).Nodup := by
  have hguard : ¬(s.collections.length ≤ 1) := by omega
  have hnil := filter_ne_nil_of_nodup s.collections cid hlen hnd
  obtain ⟨f, rest, hfr⟩ := List.exists_cons_of_ne_nil hnil
  refine ⟨f, rest, ?_, hfr.symm, ?_, ?_⟩
  · simp only [handleDeleteCollection, if_neg hguard]
    exact hfr
  · simp only [handleDeleteCollection, if_neg hguard, if_pos hact, hfr]
  · rw [← hfr]
    exact List.Nodup.sublist
      (List.Sublist.map (fun c => c.id) (List.filter_sublist s.collections)) hnd

/-- Witness for C6 on a concrete two-collection state whose active
collection is deleted. -/
theorem delete_active_fallback_first_witness :
    ∃ f rest,
      (handleDeleteCollection exTwoState "c1").collections = f :: rest ∧
      f :: rest = exTwoState.collections.filter (fun c => !(c.id == "c1")) ∧
      (handleDeleteCollection exTwoState "c1").activeCollectionId = some f.id ∧
      ((f :: rest).map (fun c => c.id)).Nodup :=
  delete_active_fallback_first exTwoState "c1" (by decide) (by decide) rfl

/-! ## Claim C5 -/

/-- `n || 0` on an already-numeric value is the identity. -/
theorem orZero_eq (n : Int) : orZero n = n := by
  unfold orZero
  by_cases h : n = 0 <;> simp [h]

/-- Duplication preserves the number of counters. -/
theorem dupCounters_length (fresh : Nat → String) (i : Nat)
    (l : List CounterData) : (dupCounters fresh i l).length = l.length := by
  induction l generalizing i with
  | nil => rfl
  | cons c rest ih => simp [dupCounters, ih]

/-- The `j`-th duplicated counter is the `j`-th source counter with only
its id replaced by the `(i+j)`-th fresh id. -/
theorem dupCounters_get (fresh : Nat → String) (i : Nat) (l : List CounterData)
    (j : Nat) (hj : j < l.length) (hj2 : j < (dupCounters fresh i l).length) :
    (dupCounters fresh i l).get ⟨j, hj2⟩
      = { l.get ⟨j, hj⟩ with id := fresh (i + j) } := by
  induction l generalizing i j with
  | nil => simp at hj
  | cons c rest ih =>
      cases j with
      | zero => simp [dupCounters, orZero_eq, List.get]
      | succ j' =>
          have hj' : j' < rest.length := by simpa using hj
          have hj2' : j' < (dupCounters fresh (i + 1) rest).length := by
            rw [dupCounters_length]; exact hj'
          show (dupCounters fresh (i + 1) rest).get ⟨j', hj2'⟩
              = { rest.get ⟨j', hj'⟩ with id := fresh (i + (j' + 1)) }
          rw [ih (i + 1) j' hj' hj2']
          have harith : i + 1 + j' = i + (j' + 1) := by omega
          rw [harith]

/-- Every duplicated counter's id is one of the fresh ids drawn for the
indices covered. -/
theorem dupCounters_mem (fresh : Nat → String) (i : Nat) (l : List CounterData)
    (c' : CounterData) (h : c' ∈ dupCounters fresh i l) :
    ∃ k, i ≤ k ∧ k < i + l.length ∧ c'.id = fresh k := by
  induction l generalizing i with
  | nil => simp [dupCounters] at h
  | cons c rest ih =>
      rw [dupCounters] at h
      rcases List.mem_cons.mp h with h1 | h2
      · exact ⟨i, Nat.le_refl i, by simp only [List.length_cons]; omega,
          by rw [h1]⟩
      · obtain ⟨k, hk1, hk2, hk3⟩ := ih (i + 1) h2
        refine ⟨k, by omega, ?_, hk3⟩
        simp only [List.length_cons]
        omega

/-- When the fresh-id source is injective on the drawn indices, the
duplicated counters have pairwise distinct ids. -/
theorem dupCounters_ids_nodup (fresh : Nat → String) (l : List CounterData)
    (i : Nat)
    (hinj : ∀ m, i ≤ m → m < i + l.length → ∀ n, i ≤ n → n < i + l.length →
        fresh m = fresh n → m = n) :
    ((dupCounters fresh i l).map (fun c => c.id)).Nodup := by
  induction l generalizing i with
  | nil => simp [dupCounters]
  | cons c rest ih =>
      rw [dupCounters, List.map_cons]
      refine List.nodup_cons.mpr ⟨?_, ?_⟩
      · intro hmem
        obtain ⟨c', hc', hid⟩ := List.mem_map.mp hmem
        obtain ⟨k, hk1, hk2, hk3⟩ := dupCounters_mem fresh (i + 1) rest c' hc'
        have hlen : k < i + (c :: rest).length := by
          simp only [List.length_cons]
          omega
        have hki : k = i := hinj k (by omega) hlen i (by omega)
          (by simp only [List.length_cons]; omega) (hk3.symm.trans hid)
        omega
      · exact ih (i + 1) (fun m hm1 hm2 n hn1 hn2 he =>
          hinj m (by omega)
            (by simp only [List.length_cons]; omega)
            n (by omega)
            (by simp only [List.length_cons]; omega) he)

/-- `handleCreateCollection` always appends exactly one new collection,
makes it active, and its id is the stringified injected timestamp. -/
theorem handleCreateCollection_shape (s : AppState) (name : String)
    (dupFrom : Option String) (now : Int) (fresh : Nat → String) :
    ∃ newColl : Collection,
      (handleCreateCollection s name dupFrom now fresh).collections
        = s.collections ++ [newColl] ∧
      (handleCreateCollection s name dupFrom now fresh).activeCollectionId
        = some newColl.id ∧
      newColl.id = toString now := by
  cases dupFrom with
  | none => exact ⟨createCollection name [] now, rfl, rfl, rfl⟩
  | some dupId =>
      by_cases h : dupId = ""
      · subst h
        exact ⟨createCollection name [] now, rfl, rfl, rfl⟩
      · cases hf : s.collections.find? (fun c => c.id == dupId) with
        | none =>
            refine ⟨createCollection name [] now, ?_, ?_, rfl⟩ <;>
              · unfold handleCreateCollection
                dsimp only
                rw [if_neg h, hf]
        | some src =>
            refine ⟨duplicateCollection src name now fresh, ?_, ?_, rfl⟩ <;>
              · unfold handleCreateCollection
                dsimp only
                rw [if_neg h, hf]

/-- C5: duplicating a collection produces counters that are field-wise
copies of the source counters, each with a fresh id disjoint from every
source counter id and pairwise distinct (assuming the injected id
source yields fresh ids); and after creating the duplicate and
switching to it, mutating any counter (by any id) leaves every
pre-existing collection — in particular the source — untouched in the
store. -/
theorem duplicate_collection_independent (s : AppState) (src : Collection)
    (name : String) (now : Int) (fresh : Nat → String)
    (hfresh : ∀ n, n < src.counters.length →
        fresh n ∉ src.counters.map (fun c => c.id))
    (hinj : ∀ m, m < src.counters.length → ∀ n, n < src.counters.length →
        fresh m = fresh n → m = n)
    (hcollfresh : ∀ c ∈ s.collections, c.id ≠ toString now) :
    (∀ c' ∈ (duplicateCollection src name now fresh).counters,
        c'.id ∉ src.counters.map (fun c => c.id)) ∧
    ((duplicateCollection src name now fresh).counters.length
        = src.counters.length) ∧
    (∀ j (hj : j < src.counters.length)
        (hj2 : j < (duplicateCollection src name now fresh).counters.length),
        (duplicateCollection src name now fresh).counters.get ⟨j, hj2⟩
          = { src.counters.get ⟨j, hj⟩ with id := fresh j }) ∧
    (((duplicateCollection src name now fresh).counters.map
        (fun c => c.id)).Nodup) ∧
    (∀ cid v now2 c, c ∈ s.collections →
        c ∈ (updateCounter
              (handleCreateCollection s name (some src.id) now fresh)
              cid v now2).collections) := by
  have hdc : (duplicateCollection src name now fresh).counters
      = dupCounters fresh 0 src.counters := rfl
  refine ⟨?_, ?_, ?_, ?_, ?_⟩
  · intro c' hc'
    rw [hdc] at hc'
    obtain ⟨k, hk1, hk2, hk3⟩ := dupCounters_mem fresh 0 src.counters c' hc'
    rw [hk3]
    exact hfresh k (by omega)
  · rw [hdc, dupCounters_length]
  · intro j hj hj2
    have h2 : j < (dupCounters fresh 0 src.counters).length := hj2
    have hget := dupCounters_get fresh 0 src.counters j hj h2
    rw [Nat.zero_add] at hget
    exact hget
  · rw [hdc]
    exact dupCounters_ids_nodup fresh src.counters 0
      (fun m hm1 hm2 n hn1 hn2 he => hinj m (by omega) n (by omega) he)
  · intro cid v now2 c hc
    obtain ⟨newColl, hcoll, hactive, hid⟩ :=
      handleCreateCollection_shape s name (some src.id) now fresh
    by_cases hz : newColl.id = ""
    · have hnoop : updateCounter
          (handleCreateCollection s name (some src.id) now fresh) cid v now2
          = handleCreateCollection s name (some src.id) now fresh := by
        simp only [updateCounter, updateActiveCollection, hactive]
        rw [if_pos hz]
      rw [hnoop, hcoll]
      exact List.mem_append_left _ hc
    · have hupd := updateActiveCollection_collections
        (handleCreateCollection s name (some src.id) now fresh)
        ((activeCounters (handleCreateCollection s name (some src.id) now fresh)).map
          (fun cc => if cc.id == cid then { cc with value := v } else cc))
        now2 newColl.id hactive hz
      simp only [updateCounter]
      rw [hupd, hcoll, List.map_append]
      apply List.mem_append_left
      refine List.mem_map.mpr ⟨c, hc, ?_⟩
      have hcne : ¬((c.id == newColl.id) = true) := by
        simp only [beq_iff_eq]
        rw [hid]
        exact hcollfresh c hc
      rw [if_neg hcne]

/-- A one-counter source collection for the duplication witness. -/
def exSourceCounter : CounterData :=
  { id := "a", label := "HP", value := 5, initialValue := 10,
    maxValue := some (JsNumber.int 10), rotation := 0 }

/-- The source collection of the duplication witness. -/
def exSourceCollection : Collection :=
  { id := "s1", name := "Source", createdAt := 0, lastModified := 0,
    counters := [exSourceCounter] }

/-- The state of the duplication witness. -/
def exDupState : AppState :=
  { collections := [exSourceCollection], activeCollectionId := some "s1" }

/-- A concrete fresh-id source for the duplication witness. -/
def exFresh : Nat → String := fun n => if n = 0 then "b" else "z"

/-- Witness for C5: the length conjunct on a concrete duplication. -/
theorem duplicate_collection_independent_witness :
    (duplicateCollection exSourceCollection "Copy" 99 exFresh).counters.length
      = exSourceCollection.counters.length :=
  (duplicate_collection_independent exDupState exSourceCollection "Copy" 99
    exFresh (by decide) (by decide) (by decide)).2.1

/-! ## Claim C4 -/

/-- Property access on a value that is not `null`/`undefined` reads the
property without throwing. -/
theorem getField_ok (c : Json) (key : String)
    (h1 : c ≠ Json.null) (h2 : c ≠ Json.undefined) :
    getField c key = .ok (propOf c key) := by
  cases c <;> first | rfl | exact absurd rfl h1 | exact absurd rfl h2

/-- On throw-free input the migration map succeeds and computes
`migrateCounter` pointwise. -/
theorem mapExcept_migrate (items : List Json)
    (h : ∀ c ∈ items, c ≠ Json.null ∧ c ≠ Json.undefined) :
    mapExcept migrateStep items = .ok (items.map migrateCounter) := by
  induction items with
  | nil => rfl
  | cons c rest ih =>
      obtain ⟨h1, h2⟩ := h c (List.mem_cons_self c rest)
      have hg : migrateStep c = .ok (migrateCounter c) := by
        unfold migrateStep
        rw [getField_ok c "rotation" h1 h2]
        rfl
      rw [List.map_cons]
      unfold mapExcept
      rw [hg, ih (fun c' hc' => h c' (List.mem_cons_of_mem c hc'))]

/-- Looking up the key just set by `setField` yields the new value. -/
theorem lookup_setField_self (fs : List (String × Json)) (key : String)
    (v : Json) : (setField fs key v).lookup key = some v := by
  induction fs with
  | nil => simp [setField, List.lookup]
  | cons p rest ih =>
      obtain ⟨k, w⟩ := p
      by_cases h : k = key
      · simp [setField, h, List.lookup]
      · have hb : (key == k) = false :=
          beq_eq_false_iff_ne.mpr (fun hh => h hh.symm)
        simp [setField, h, List.lookup, hb, ih]

/-- Looking up any other key after `setField` is unchanged. -/
theorem lookup_setField_ne (fs : List (String × Json)) (key other : String)
    (v : Json) (h : other ≠ key) :
    (setField fs key v).lookup other = fs.lookup other := by
  have hb : (other == key) = false := beq_eq_false_iff_ne.mpr h
  induction fs with
  | nil => simp [setField, List.lookup, hb]
  | cons p rest ih =>
      obtain ⟨k, w⟩ := p
      by_cases hk : k = key
      · subst hk
        simp [setField, List.lookup, hb]
      · by_cases ho : other = k
        · simp [setField, hk, List.lookup, ho]
        · have hb2 : (other == k) = false := beq_eq_false_iff_ne.mpr ho
          simp [setField, hk, List.lookup, hb2, ih]

/-- The migration backfill preserves every field other than
`rotation`. -/
theorem migrateCounter_preserves (c : Json) (k : String)
    (h : k ≠ "rotation") :
    propOf (migrateCounter c) k = propOf c k := by
  have hne := fun (fs : List (String × Json)) (v : Json) =>
    lookup_setField_ne fs "rotation" k v h
  have hb : (k == "rotation") = false := beq_eq_false_iff_ne.mpr h
  cases c <;> simp [migrateCounter, spreadWith, propOf, List.lookup, hb, hne]

/-- The migration backfill writes `rotation: counter.rotation || 0`. -/
theorem migrateCounter_rotationField (c : Json) :
    propOf (migrateCounter c) "rotation"
      = jsOr (propOf c "rotation") (Json.num 0) := by
  cases c <;>
    simp [migrateCounter, spreadWith, propOf, lookup_setField_self, List.lookup]

/-- C4: migrating a legacy flat counter list (current-shape key absent)
yields exactly one collection, named with the default name
"My Counters", containing exactly the backfilled entries that satisfy
the valid-counter predicate (invalid entries dropped, valid ones kept
in order), made active (the active id is the new collection's id); the
legacy storage key is absent afterwards; and the backfill preserves
every field other than the `rotation` it defaults, so retained valid
entries are identical in fields. -/
theorem legacy_migration_correct (items : List Json)
    (appSettings : Option (Option Json)) (now : Nat)
    (h : ∀ c ∈ items, c ≠ Json.null ∧ c ≠ Json.undefined) :
    (∃ coll,
      (loadState none (some (some (Json.arr items))) appSettings now).collections
        = [coll] ∧
      propOf coll "name" = Json.str "My Counters" ∧
      propOf coll "counters"
        = Json.arr ((items.map migrateCounter).filter isValidCounterData) ∧
      (loadState none (some (some (Json.arr items))) appSettings now).activeId
        = propOf coll "id") ∧
    (loadState none (some (some (Json.arr items))) appSettings now).legacyKeyPresent
      = false ∧
    (∀ c k, k ≠ "rotation" → propOf (migrateCounter c) k = propOf c k) ∧
    (∀ c, propOf (migrateCounter c) "rotation"
        = jsOr (propOf c "rotation") (Json.num 0)) := by
  have hm := mapExcept_migrate items h
  have htry : tryLoad none (some (some (Json.arr items))) appSettings now
      = .ok ⟨[createCollectionJson "My Counters"
              ((items.map migrateCounter).filter isValidCounterData) now],
            .str (toString now), false⟩ := by
    show (match mapExcept migrateStep items with
      | Except.error e => (Except.error e : Except Unit LoadOutcome)
      | Except.ok migrated =>
          Except.ok (LoadOutcome.mk
            [createCollectionJson "My Counters"
              (migrated.filter isValidCounterData) now]
            (Json.str (toString now)) false))
      = .ok ⟨[createCollectionJson "My Counters"
              ((items.map migrateCounter).filter isValidCounterData) now],
            .str (toString now), false⟩
    rw [hm]
  have hload : loadState none (some (some (Json.arr items))) appSettings now
      = ⟨[createCollectionJson "My Counters"
            ((items.map migrateCounter).filter isValidCounterData) now],
         .str (toString now), false⟩ := by
    unfold loadState
    rw [htry]
  refine ⟨⟨createCollectionJson "My Counters"
      ((items.map migrateCounter).filter isValidCounterData) now,
      ?_, ?_, rfl, ?_⟩, ?_, migrateCounter_preserves,
      migrateCounter_rotationField⟩
  · rw [hload]
  · exact congrArg Json.str (by decide)
  · rw [hload]
    rfl
  · rw [hload]

/-- Witness for C4 on the spec's two-entry legacy list: one valid
counter, one invalid entry missing its fields. -/
theorem legacy_migration_correct_witness :
    (∃ coll,
      (loadState none (some (some (Json.arr [legacyValidEntry, legacyInvalidEntry])))
          none 7).collections = [coll] ∧
      propOf coll "name" = Json.str "My Counters" ∧
      propOf coll "counters"
        = Json.arr (([legacyValidEntry, legacyInvalidEntry].map
            migrateCounter).filter isValidCounterData) ∧
      (loadState none (some (some (Json.arr [legacyValidEntry, legacyInvalidEntry])))
          none 7).activeId = propOf coll "id") ∧
    (loadState none (some (some (Json.arr [legacyValidEntry, legacyInvalidEntry])))
        none 7).legacyKeyPresent = false ∧
    (∀ c k, k ≠ "rotation" → propOf (migrateCounter c) k = propOf c k) ∧
    (∀ c, propOf (migrateCounter c) "rotation"
        = jsOr (propOf c "rotation") (Json.num 0)) :=
  legacy_migration_correct [legacyValidEntry, legacyInvalidEntry] none 7
    (by
      intro c hc
      cases hc with
      | head =>
          exact ⟨fun hcon => Json.noConfusion hcon,
                 fun hcon => Json.noConfusion hcon⟩
      | tail _ hc2 =>
          cases hc2 with
          | head =>
              exact ⟨fun hcon => Json.noConfusion hcon,
                     fun hcon => Json.noConfusion hcon⟩
          | tail _ hc3 => cases hc3)

/-! ## Claim C3 -/

/-- C3 counterexample: current-shape data that parses successfully but
is not an array (here the object `{}`) raises no exception, so the
fallback never runs: the load ends with zero collections and a null
active id — the application is left without a usable active collection
although no parse failure or exception occurred. -/
theorem load_non_array_counterexample :
    (loadState (some (some (Json.obj []))) none none 0).collections = [] ∧
    (loadState (some (some (Json.obj []))) none none 0).activeId = Json.null ∧
    tryLoad (some (some (Json.obj []))) none none 0 ≠ .error () :=
  ⟨rfl, rfl, fun hcon => Except.noConfusion hcon⟩

/-- C3 (amended): any parse failure or exception during load/migration
results in the full fallback — exactly one fresh empty collection named
with the default name is created and made active — so a parse failure
or exception never leaves the application without a usable active
collection.  (Current-shape data that parses as an array raises no
exception and is used as-is, even when empty or non-usable.) -/
theorem parse_failure_full_fallback (cd gc st : Option (Option Json))
    (now : Nat) (h : tryLoad cd gc st now = .error ()) :
    ∃ coll,
      (loadState cd gc st now).collections = [coll] ∧
      propOf coll "name" = Json.str "My Counters" ∧
      propOf coll "counters" = Json.arr [] ∧
      (loadState cd gc st now).activeId = propOf coll "id" := by
  have hload : loadState cd gc st now
      = ⟨[createCollectionJson "My Counters" [] now],
         .str (toString now), gc.isSome⟩ := by
    unfold loadState
    rw [h]
  refine ⟨createCollectionJson "My Counters" [] now,
    by rw [hload], congrArg Json.str (by decide), rfl, ?_⟩
  rw [hload]
  rfl

/-- Witness for C3 at a stored current-shape entry whose content
`JSON.parse` rejects. -/
theorem parse_failure_full_fallback_witness :
    tryLoad (some none) none none 5 = .error () ∧
    ∃ coll,
      (loadState (some none) none none 5).collections = [coll] ∧
      propOf coll "name" = Json.str "My Counters" ∧
      propOf coll "counters" = Json.arr [] ∧
      (loadState (some none) none none 5).activeId = propOf coll "id" :=
  ⟨rfl, parse_failure_full_fallback (some none) none none 5 rfl⟩

/-! ## Claim C1 -/

/-- C1 counterexample: startup initialization from the persisted
current-shape entry `[]` (a valid JSON array, raising no exception)
leaves the collection store with zero collections, so not every state
reachable after startup initialization contains at least one
Collection. -/
theorem load_empty_array_counterexample :
    (loadState (some (some (Json.arr []))) none none 0).collections = [] ∧
    tryLoad (some (some (Json.arr []))) none none 0 ≠ .error () :=
  ⟨rfl, fun hcon => Except.noConfusion hcon⟩

/-- One user-triggered store operation, with the wall clock and the
id source injected per step; collection creation draws a timestamp id
not already in use, reflecting the monotonically-increasing unique-id
source the program depends on. -/
inductive Step : AppState → AppState → Prop where
  | add (s : AppState) (label mv dv : String) (now : Int) :
      Step s (addCounter s label mv dv now)
  | remove (s : AppState) (cid : String) (now : Int) :
      Step s (removeCounter s cid now)
  | update (s : AppState) (cid : String) (v now : Int) :
      Step s (updateCounter s cid v now)
  | rotate (s : AppState) (cid : String) (r now : Int) :
      Step s (rotateCounter s cid r now)
  | resetAll (s : AppState) (now : Int) :
      Step s (resetAllCounters s now)
  | createColl (s : AppState) (name : String) (dupFrom : Option String)
      (now : Int) (fresh : Nat → String)
      (hfresh : ∀ c ∈ s.collections, c.id ≠ toString now) :
      Step s (handleCreateCollection s name dupFrom now fresh)
  | deleteColl (s : AppState) (cid : String) :
      Step s (handleDeleteCollection s cid)
  | renameColl (s : AppState) (cid name : String) (now : Int) :
      Step s (handleRenameCollection s cid name now)
  | switch (s : AppState) (cid : String) :
      Step s (switchToCollection s cid)

/-- The store invariant: at least one collection, with pairwise
distinct collection ids. -/
def GoodState (s : AppState) : Prop :=
  s.collections ≠ [] ∧ (s.collections.map (fun c => c.id)).Nodup

/-- A collection-wise map that never changes ids leaves the id list
unchanged. -/
theorem map_ids_eq (l : List Collection) (f : Collection → Collection)
    (hf : ∀ c, (f c).id = c.id) :
    (l.map f).map (fun c => c.id) = l.map (fun c => c.id) := by
  induction l with
  | nil => rfl
  | cons c t ih => simp [hf, ih]

/-- `updateActiveCollection` preserves the store invariant. -/
theorem goodState_update (s : AppState) (cs : List CounterData) (now : Int)
    (hg : GoodState s) : GoodState (updateActiveCollection s cs now) := by
  unfold updateActiveCollection
  split
  · exact hg
  · split
    · exact hg
    · refine ⟨?_, ?_⟩
      · dsimp only
        intro hnil
        exact hg.1 (List.map_eq_nil_iff.mp hnil)
      · dsimp only
        rw [map_ids_eq]
        · exact hg.2
        · intro c
          split <;> rfl

/-- Every store operation preserves the invariant (collection creation
under the freshness of the injected id source). -/
theorem goodState_step (s s' : AppState) (hstep : Step s s')
    (hg : GoodState s) : GoodState s' := by
  cases hstep with
  | add label mv dv now =>
      show GoodState (addCounter s label mv dv now)
      unfold addCounter
      split
      · exact goodState_update s _ now hg
      · exact hg
  | remove cid now => exact goodState_update s _ now hg
  | update cid v now => exact goodState_update s _ now hg
  | rotate cid r now => exact goodState_update s _ now hg
  | resetAll now => exact goodState_update s _ now hg
  | createColl name dupFrom now fresh hfresh =>
      obtain ⟨newColl, hcoll, hactive, hid⟩ :=
        handleCreateCollection_shape s name dupFrom now fresh
      refine ⟨?_, ?_⟩
      · rw [hcoll]
        exact List.append_ne_nil_of_right_ne_nil _ (by simp)
      · rw [hcoll, List.map_append, List.nodup_append]
        refine ⟨hg.2, by simp, ?_⟩
        intro a ha hamem
        simp only [List.map_cons, List.map_nil, List.mem_singleton] at hamem
        obtain ⟨c, hc, hcid⟩ := List.mem_map.mp ha
        exact hfresh c hc (by rw [hcid, hamem, hid])
  | deleteColl cid =>
      show GoodState (handleDeleteCollection s cid)
      unfold handleDeleteCollection
      split
      · exact hg
      · rename_i hlen
        refine ⟨?_, ?_⟩
        · dsimp only
          exact filter_ne_nil_of_nodup s.collections cid (by omega) hg.2
        · dsimp only
          exact List.Nodup.sublist
            (List.Sublist.map _ (List.filter_sublist _)) hg.2
  | renameColl cid name now =>
      refine ⟨?_, ?_⟩
      · dsimp only [handleRenameCollection]
        intro hnil
        exact hg.1 (List.map_eq_nil_iff.mp hnil)
      · dsimp only [handleRenameCollection]
        rw [map_ids_eq]
        · exact hg.2
        · intro c
          split <;> rfl
  | switch cid => exact ⟨hg.1, hg.2⟩

/-- C1 (amended): provided startup initialization yields at least one
collection with pairwise distinct ids (true of the fresh-default,
legacy-migration and exception-fallback startup paths, but not of a
persisted current-shape empty array, which is loaded as-is), every
store state reachable through the operations contains at least one
Collection, and an attempt to delete the last remaining collection is
rejected: the state, in particular the collection count, is
unchanged. -/
theorem reachable_collections_nonempty (s0 s : AppState)
    (h0 : GoodState s0) (hr : Relation.ReflTransGen Step s0 s) :
    s.collections ≠ [] ∧
      ∀ cid, s.collections.length ≤ 1 → handleDeleteCollection s cid = s := by
  have hg : GoodState s := by
    induction hr with
    | refl => exact h0
    | tail _ hstep ih => exact goodState_step _ _ hstep ih
  refine ⟨hg.1, fun cid hlen => ?_⟩
  unfold handleDeleteCollection
  rw [if_pos hlen]

/-- Witness for the amended C1 theorem: a one-collection state is
reachable (trivially) and deleting its only collection is rejected as
a no-op. -/
theorem reachable_collections_nonempty_witness :
    exState.collections ≠ [] ∧
      handleDeleteCollection exState "c1" = exState :=
  ⟨(reachable_collections_nonempty exState exState ⟨by decide, by decide⟩
      Relation.ReflTransGen.refl).1,
   (reachable_collections_nonempty exState exState ⟨by decide, by decide⟩
      Relation.ReflTransGen.refl).2 "c1" (by decide)⟩

end GameCounters
